import Mathlib

/- Verification of the digital-stage api-client-react core: a shallow embedding
   of the position and volume resolvers (useStageDevicePosition, the audio
   renderers), the normalized-store reducers (reduceCustomGroupPositions,
   reduceVideoTracks) and the mediasoup session helpers (pause/resume, consume,
   connect, refreshMediaDevices), with theorems settling the specification's
   claims about them.  Numbers are modelled as rationals; JavaScript objects as
   functions into Option; JavaScript truthiness is made explicit. -/

/-- JavaScript fallback `a || b` on an optionally-present number `a`
(as in `customGroupPosition?.x || group.x`): `undefined` and `0` are falsy,
so a present zero still falls back to `b`. -/
def jsOrNum (a : Option ℚ) (b : ℚ) : ℚ :=
  match a with
  | some v => if v = 0 then b else v
  | none => b

/-- JavaScript fallback `a || b` on an optionally-present string `a`
(as in `customGroupPosition?.directivity || group.directivity`): `undefined`
and the empty string are falsy. -/
def jsOrStr (a : Option String) (b : String) : String :=
  match a with
  | some v => if v = "" then b else v
  | none => b

/-- Pose record mirroring `ThreeDimensionalProperties` of @digitalstage/api-types:
x/y/z position, rX/rY/rZ rotation, and a directivity string. -/
structure ThreeDimensionalProperties where
  x : ℚ
  y : ℚ
  z : ℚ
  rX : ℚ
  rY : ℚ
  rZ : ℚ
  directivity : String
deriving DecidableEq

/-- The position computation of the `useStageDevicePosition` hook
(src/unnamed/part_001, lines 66-104), for the case where group, stage member
and stage device are all available: each axis is
`(customGroupPosition?.axis || group.axis) +
 (customStageMemberPosition?.axis || stageMember.axis) +
 (customStageDevicePosition?.axis || stageDevice.axis)`,
and directivity is `customGroupPosition?.directivity || group.directivity`. -/
def useStageDevicePosition (group stageMember stageDevice : ThreeDimensionalProperties)
    (customGroupPosition customStageMemberPosition customStageDevicePosition :
      Option ThreeDimensionalProperties) : ThreeDimensionalProperties where
  x := jsOrNum (customGroupPosition.map (·.x)) group.x +
    jsOrNum (customStageMemberPosition.map (·.x)) stageMember.x +
    jsOrNum (customStageDevicePosition.map (·.x)) stageDevice.x
  y := jsOrNum (customGroupPosition.map (·.y)) group.y +
    jsOrNum (customStageMemberPosition.map (·.y)) stageMember.y +
    jsOrNum (customStageDevicePosition.map (·.y)) stageDevice.y
  z := jsOrNum (customGroupPosition.map (·.z)) group.z +
    jsOrNum (customStageMemberPosition.map (·.z)) stageMember.z +
    jsOrNum (customStageDevicePosition.map (·.z)) stageDevice.z
  rX := jsOrNum (customGroupPosition.map (·.rX)) group.rX +
    jsOrNum (customStageMemberPosition.map (·.rX)) stageMember.rX +
    jsOrNum (customStageDevicePosition.map (·.rX)) stageDevice.rX
  rY := jsOrNum (customGroupPosition.map (·.rY)) group.rY +
    jsOrNum (customStageMemberPosition.map (·.rY)) stageMember.rY +
    jsOrNum (customStageDevicePosition.map (·.rY)) stageDevice.rY
  rZ := jsOrNum (customGroupPosition.map (·.rZ)) group.rZ +
    jsOrNum (customStageMemberPosition.map (·.rZ)) stageMember.rZ +
    jsOrNum (customStageDevicePosition.map (·.rZ)) stageDevice.rZ
  directivity := jsOrStr (customGroupPosition.map (·.directivity)) group.directivity

/-- Volume/mute pair mirroring the volume properties of @digitalstage/api-types
entities and their per-device overrides. -/
structure VolumeProperties where
  volume : ℚ
  muted : Bool
deriving DecidableEq

/-- Gain resolution of `AudioTrackRenderer` (src/unnamed/part_000, lines
190-209): `if (customVolume?.muted) 0; else if (customVolume?.volume)
customVolume.volume; else if (audioTrack.muted) 0; else audioTrack.volume`.
JavaScript truthiness makes an override volume of 0 fall through to the
track's own mute and volume. -/
def audioTrackRendererGain (customVolume : Option VolumeProperties)
    (audioTrack : VolumeProperties) : ℚ :=
  match customVolume with
  | some c =>
    if c.muted then 0
    else if c.volume ≠ 0 then c.volume
    else if audioTrack.muted then 0
    else audioTrack.volume
  | none =>
    if audioTrack.muted then 0
    else audioTrack.volume

/-- Gain resolution of `GroupRenderer` (src/unnamed/part_000, lines 507-526),
textually the same chain as `AudioTrackRenderer` over the group's custom
volume and the group's own volume and mute (StageDeviceRenderer and
StageMemberRenderer repeat it for their levels as well). -/
def groupRendererGain (customVolume : Option VolumeProperties)
    (group : VolumeProperties) : ℚ :=
  match customVolume with
  | some c =>
    if c.muted then 0
    else if c.volume ≠ 0 then c.volume
    else if group.muted then 0
    else group.volume
  | none =>
    if group.muted then 0
    else group.volume

/-- The gain chain as claim C6 words it: strict precedence in which a present
device-specific override always decides at its slot — override mute, then
override volume (whatever its value), then the entity's own mute, then the
entity's own volume.  Stated from the claim's words, to be compared with the
source-derived `audioTrackRendererGain`. -/
def strictPrecedenceGain (customVolume : Option VolumeProperties)
    (entity : VolumeProperties) : ℚ :=
  match customVolume with
  | some c => if c.muted then 0 else c.volume
  | none => if entity.muted then 0 else entity.volume

/-- The position cascade as claim C1 words it: a present override fully
replaces its level's base contribution (even when the override value is 0).
Stated from the claim's words, to be compared with the source-derived
`useStageDevicePosition`; only the x axis is needed by the claim. -/
def replacingPositionX (group stageMember stageDevice : ThreeDimensionalProperties)
    (customGroupPosition customStageMemberPosition customStageDevicePosition :
      Option ThreeDimensionalProperties) : ℚ :=
  (customGroupPosition.map (·.x)).getD group.x +
    (customStageMemberPosition.map (·.x)).getD stageMember.x +
    (customStageDevicePosition.map (·.x)).getD stageDevice.x

def demoGroupPose : ThreeDimensionalProperties := ⟨10, 0, 0, 0, 0, 0, "omni"⟩

def demoStageMemberPose : ThreeDimensionalProperties := ⟨5, 0, 0, 0, 0, 0, "omni"⟩

def demoStageDevicePose : ThreeDimensionalProperties := ⟨2, 0, 0, 0, 0, 0, "omni"⟩

def demoZeroOverride : ThreeDimensionalProperties := ⟨0, 0, 0, 0, 0, 0, ""⟩

/-- C1, counterexample: with group x=10, stage-member x=5, stage-device x=2 and
a device-specific group-position override x=0, the code resolves x to 17, not
the claimed 7: the `||` fallback treats the zero override as absent, so the
override does not replace the group term.  (The claim-side replacing resolver
does give 7.) -/
theorem c1_zero_override_counterexample :
    (useStageDevicePosition demoGroupPose demoStageMemberPose demoStageDevicePose
      (some demoZeroOverride) none none).x = 17 ∧
    (useStageDevicePosition demoGroupPose demoStageMemberPose demoStageDevicePose
      (some demoZeroOverride) none none).x ≠ 7 ∧
    replacingPositionX demoGroupPose demoStageMemberPose demoStageDevicePose
      (some demoZeroOverride) none none = 7 := by
  norm_num [useStageDevicePosition, replacingPositionX, jsOrNum, jsOrStr,
    demoGroupPose, demoStageMemberPose, demoStageDevicePose, demoZeroOverride]

/-- C1 (amended): the resolved position on each axis is the sum over the three
levels of the override value when one is present and non-zero, else the base
value — a zero-valued override falls back to the level's base instead of
replacing it.  With 10/5/2 and no overrides x resolves to 17; with a
device-specific group-position override x=0 it still resolves to 17; a
non-zero group override (x=1) does replace the group term, giving 8. -/
theorem c1_position_resolution_amended :
    (∀ g sm sd : ThreeDimensionalProperties,
      (useStageDevicePosition g sm sd none none none).x = g.x + sm.x + sd.x) ∧
    (∀ g sm sd cg csm csd : ThreeDimensionalProperties,
      (useStageDevicePosition g sm sd (some cg) (some csm) (some csd)).x =
        (if cg.x = 0 then g.x else cg.x) + (if csm.x = 0 then sm.x else csm.x) +
          (if csd.x = 0 then sd.x else csd.x)) ∧
    (useStageDevicePosition demoGroupPose demoStageMemberPose demoStageDevicePose
      none none none).x = 17 ∧
    (useStageDevicePosition demoGroupPose demoStageMemberPose demoStageDevicePose
      (some demoZeroOverride) none none).x = 17 ∧
    (useStageDevicePosition demoGroupPose demoStageMemberPose demoStageDevicePose
      (some ⟨1, 0, 0, 0, 0, 0, ""⟩) none none).x = 8 := by
  refine ⟨?_, ?_, ?_, ?_, ?_⟩
  · intro g sm sd
    simp [useStageDevicePosition, jsOrNum]
  · intro g sm sd cg csm csd
    simp [useStageDevicePosition, jsOrNum]
  all_goals
    norm_num [useStageDevicePosition, jsOrNum, demoGroupPose,
      demoStageMemberPose, demoStageDevicePose, demoZeroOverride]

/-- C6, counterexample: an override carrying volume 0 (and muted false) does
not take precedence as the claimed strict chain demands — the rendered gain
falls through to the entity's own volume (4/5), where the strict-precedence
chain of the claim would give 0. -/
theorem c6_zero_override_volume_counterexample :
    audioTrackRendererGain (some ⟨0, false⟩) ⟨4/5, false⟩ = 4/5 ∧
    strictPrecedenceGain (some ⟨0, false⟩) ⟨4/5, false⟩ = 0 ∧
    audioTrackRendererGain (some ⟨0, false⟩) ⟨4/5, false⟩ ≠
      strictPrecedenceGain (some ⟨0, false⟩) ⟨4/5, false⟩ := by
  norm_num [audioTrackRendererGain, strictPrecedenceGain]

/-- C6 (amended): the rendered gain follows the precedence chain override mute
→ override volume → entity mute → entity volume, except that a present
override volume equal to 0 (with muted false) is skipped and resolution falls
through to the entity's own mute and volume.  Whenever the mute flag selected
by this chain is set the gain is 0 regardless of any volume value — an entity
volume of 4/5 with an override carrying muted true renders silent.  The
`GroupRenderer` chain is identical to the `AudioTrackRenderer` chain. -/
theorem c6_gain_precedence_amended :
    (∀ c e : VolumeProperties,
      audioTrackRendererGain (some c) e =
        (if c.muted then 0
          else if c.volume = 0 then (if e.muted then 0 else e.volume)
          else c.volume)) ∧
    (∀ e : VolumeProperties,
      audioTrackRendererGain none e = (if e.muted then 0 else e.volume)) ∧
    (∀ (cv : Option VolumeProperties) (e : VolumeProperties),
      groupRendererGain cv e = audioTrackRendererGain cv e) ∧
    audioTrackRendererGain (some ⟨1/2, true⟩) ⟨4/5, false⟩ = 0 ∧
    audioTrackRendererGain none ⟨4/5, true⟩ = 0 := by
  refine ⟨?_, ?_, ?_, ?_, ?_⟩
  · intro c e
    by_cases hm : c.muted <;> by_cases hv : c.volume = 0 <;>
      simp [audioTrackRendererGain, hm, hv]
  · intro e
    simp [audioTrackRendererGain]
  · intro cv e
    cases cv <;> simp [audioTrackRendererGain, groupRendererGain]
  all_goals norm_num [audioTrackRendererGain]

/-- Modelled from the spec: the repository's `src/redux/utils/upsert` helper is
imported by both reducers but its source is not under src/.  Spec section 4.1
says add "upserts (not duplicates)" into `allIds`, "initializing an empty
sequence if the parent bucket doesn't exist yet", so `upsert` appends the value
unless it is already contained, treating an `undefined` bucket as empty. -/
def upsert (arr : Option (List String)) (v : String) : List String :=
  match arr with
  | some l => if v ∈ l then l else l ++ [v]
  | none => [v]

/-- JavaScript `bucket ? [...bucket, id] : [id]` as used by
`addCustomGroupPosition`: every array (even an empty one) is truthy, so a
present bucket is appended to and only an `undefined` bucket starts fresh.
Unlike `upsert` this never checks containment. -/
def jsAppend (bucket : Option (List String)) (v : String) : List String :=
  match bucket with
  | some l => l ++ [v]
  | none => [v]

/-- JavaScript shallow-merge of one field: a field present in the patch object
overrides, an absent one keeps the old value (`{...old, ...patch}`). -/
def jsMergeField {α : Type} (patchField oldField : Option α) : Option α :=
  match patchField with
  | some v => some v
  | none => oldField

/-- Full `CustomGroupPosition` entity as delivered by `Added`/`StageJoined`
payloads: id, overridden group, owning device, and pose data (`x` stands in
for the pose fields x/y/z/rX/rY/rZ/directivity, which the reducer treats
uniformly and opaquely). -/
structure CustomGroupPosition where
  _id : String
  groupId : String
  deviceId : String
  x : ℚ
deriving DecidableEq

/-- Stored record / `Changed` payload shape for a custom group position: a
JavaScript object whose fields beyond `_id` may be absent.  A properly added
entity has every field present; a record created by patching an unknown id
carries only the patch's fields. -/
structure CustomGroupPositionRecord where
  _id : String
  groupId : Option String
  deviceId : Option String
  x : Option ℚ
deriving DecidableEq

def CustomGroupPosition.toRecord (e : CustomGroupPosition) : CustomGroupPositionRecord :=
  ⟨e._id, some e.groupId, some e.deviceId, some e.x⟩

/-- The record `{...undefined, ...payload}` starts from: an object with only
the `_id` key (all other fields absent). -/
def emptyCGPRecord (i : String) : CustomGroupPositionRecord :=
  ⟨i, none, none, none⟩

/-- JavaScript `{...old, ...patch}` on custom-group-position records. -/
def mergeCGP (old patch : CustomGroupPositionRecord) : CustomGroupPositionRecord :=
  ⟨patch._id,
    jsMergeField patch.groupId old.groupId,
    jsMergeField patch.deviceId old.deviceId,
    jsMergeField patch.x old.x⟩

/-- Reading a key of a possibly-`undefined` nested JavaScript object, as the
spread `{...state.byDeviceAndGroup[deviceId], ...}` does: an absent object
contributes no keys. -/
def innerOf (o : Option (String → Option String)) (g : String) : Option String :=
  match o with
  | some m => m g
  | none => none

/-- Normalized store for custom group positions
(src/src/redux/reducers/reduceCustomGroupPositions.ts): `byId` plus the
secondary indices `byGroup`, `byDevice`, the compound `byDeviceAndGroup`, and
`allIds`.  JavaScript objects are modelled as functions into `Option`. -/
structure CustomGroupPositions where
  byId : String → Option CustomGroupPositionRecord
  byGroup : String → Option (List String)
  byDevice : String → Option (List String)
  byDeviceAndGroup : String → Option (String → Option String)
  allIds : List String

def initialCustomGroupPositions : CustomGroupPositions :=
  ⟨fun _ => none, fun _ => none, fun _ => none, fun _ => none, []⟩

/-- `addCustomGroupPosition` (reduceCustomGroupPositions.ts, lines 10-41):
merge into `byId`, append the id to the `byGroup` and `byDevice` buckets
(creating them when absent, without a containment check), set the
`byDeviceAndGroup[deviceId][groupId]` slot, and upsert into `allIds`. -/
def addCustomGroupPosition (state : CustomGroupPositions)
    (customGroup : CustomGroupPosition) : CustomGroupPositions where
  byId := fun k =>
    if k = customGroup._id then some customGroup.toRecord else state.byId k
  byGroup := fun k =>
    if k = customGroup.groupId then
      some (jsAppend (state.byGroup customGroup.groupId) customGroup._id)
    else state.byGroup k
  byDevice := fun k =>
    if k = customGroup.deviceId then
      some (jsAppend (state.byDevice customGroup.deviceId) customGroup._id)
    else state.byDevice k
  byDeviceAndGroup := fun d =>
    if d = customGroup.deviceId then
      some (fun g =>
        if g = customGroup.groupId then some customGroup._id
        else innerOf (state.byDeviceAndGroup customGroup.deviceId) g)
    else state.byDeviceAndGroup d
  allIds := upsert (some state.allIds) customGroup._id

/-- The store events reduceCustomGroupPositions reacts to; `other` stands for
every action type hitting the default branch. -/
inductive CustomGroupPositionAction where
  | stageLeft
  | reset
  | stageJoined (customGroupPositions : Option (List CustomGroupPosition))
  | added (payload : CustomGroupPosition)
  | changed (payload : CustomGroupPositionRecord)
  | removed (id : String)
  | other

/-- `reduceCustomGroupPositions` (reduceCustomGroupPositions.ts, lines 43-122).
`StageLeft`/`RESET` clear everything; `StageJoined` bulk-adds; `Added` adds;
`Changed` rebuilds only `byId`, merging `{...state.byId[id], ...payload}`
(so an unknown id spreads `undefined` and stores the bare payload); `Removed`
is guarded on the id being known and strips the id from the indices keyed by
the stored record's `groupId`/`deviceId` (lodash `without`/`omit`, which treat
an absent bucket as empty). -/
def reduceCustomGroupPositions (state : CustomGroupPositions)
    (action : CustomGroupPositionAction) : CustomGroupPositions :=
  match action with
  | .stageLeft => initialCustomGroupPositions
  | .reset => initialCustomGroupPositions
  | .stageJoined customGroupPositions =>
    match customGroupPositions with
    | some l => l.foldl addCustomGroupPosition state
    | none => state
  | .added payload => addCustomGroupPosition state payload
  | .changed payload =>
    { state with
      byId := fun k =>
        if k = payload._id then
          some (mergeCGP ((state.byId payload._id).getD (emptyCGPRecord payload._id))
            payload)
        else state.byId k }
  | .removed id =>
    match state.byId id with
    | some record =>
      { byId := fun k => if k = id then none else state.byId k
        byGroup := fun k =>
          if k = record.groupId.getD "undefined" then
            some (((state.byGroup (record.groupId.getD "undefined")).getD []).filter
              (· ≠ id))
          else state.byGroup k
        byDevice := fun k =>
          if k = record.deviceId.getD "undefined" then
            some (((state.byDevice (record.deviceId.getD "undefined")).getD []).filter
              (· ≠ id))
          else state.byDevice k
        byDeviceAndGroup := fun d =>
          if d = record.deviceId.getD "undefined" then
            some (fun g =>
              if g = record.groupId.getD "undefined" then none
              else innerOf (state.byDeviceAndGroup (record.deviceId.getD "undefined")) g)
          else state.byDeviceAndGroup d
        allIds := state.allIds.filter (· ≠ id) }
    | none => state
  | .other => state

/-- Full `VideoTrack` entity as delivered by `Added`/`StageJoined` payloads
(`type` stands in for the track's data fields, which the reducer treats
opaquely). -/
structure VideoTrack where
  _id : String
  stageMemberId : String
  stageDeviceId : String
  stageId : String
  userId : String
  type : String
deriving DecidableEq

/-- Stored record / `Changed` payload shape for a video track. -/
structure VideoTrackRecord where
  _id : String
  stageMemberId : Option String
  stageDeviceId : Option String
  stageId : Option String
  userId : Option String
  type : Option String
deriving DecidableEq

def VideoTrack.toRecord (v : VideoTrack) : VideoTrackRecord :=
  ⟨v._id, some v.stageMemberId, some v.stageDeviceId, some v.stageId,
    some v.userId, some v.type⟩

def emptyVTRecord (i : String) : VideoTrackRecord :=
  ⟨i, none, none, none, none, none⟩

/-- JavaScript `{...old, ...patch}` on video-track records. -/
def mergeVT (old patch : VideoTrackRecord) : VideoTrackRecord :=
  ⟨patch._id,
    jsMergeField patch.stageMemberId old.stageMemberId,
    jsMergeField patch.stageDeviceId old.stageDeviceId,
    jsMergeField patch.stageId old.stageId,
    jsMergeField patch.userId old.userId,
    jsMergeField patch.type old.type⟩

/-- Normalized store for video tracks
(src/src/redux/reducers/reduceVideoTracks.ts). -/
structure VideoTracks where
  byId : String → Option VideoTrackRecord
  byStageMember : String → Option (List String)
  byStageDevice : String → Option (List String)
  byStage : String → Option (List String)
  byUser : String → Option (List String)
  allIds : List String

def initialVideoTracks : VideoTracks :=
  ⟨fun _ => none, fun _ => none, fun _ => none, fun _ => none, fun _ => none, []⟩

/-- `addVideoTrack` (reduceVideoTracks.ts, lines 8-37): merge into `byId` and
upsert the id into each of the four secondary-index buckets and `allIds`. -/
def addVideoTrack (state : VideoTracks) (videoTrack : VideoTrack) : VideoTracks where
  byId := fun k =>
    if k = videoTrack._id then some videoTrack.toRecord else state.byId k
  byStageMember := fun k =>
    if k = videoTrack.stageMemberId then
      some (upsert (state.byStageMember videoTrack.stageMemberId) videoTrack._id)
    else state.byStageMember k
  byStageDevice := fun k =>
    if k = videoTrack.stageDeviceId then
      some (upsert (state.byStageDevice videoTrack.stageDeviceId) videoTrack._id)
    else state.byStageDevice k
  byStage := fun k =>
    if k = videoTrack.stageId then
      some (upsert (state.byStage videoTrack.stageId) videoTrack._id)
    else state.byStage k
  byUser := fun k =>
    if k = videoTrack.userId then
      some (upsert (state.byUser videoTrack.userId) videoTrack._id)
    else state.byUser k
  allIds := upsert (some state.allIds) videoTrack._id

inductive VideoTrackAction where
  | stageLeft
  | reset
  | stageJoined (videoTracks : Option (List VideoTrack))
  | added (payload : VideoTrack)
  | changed (payload : VideoTrackRecord)
  | removed (id : String)
  | other

/-- `reduceVideoTracks` (reduceVideoTracks.ts, lines 39-124); same shape as
`reduceCustomGroupPositions` with four flat secondary indices. -/
def reduceVideoTracks (state : VideoTracks) (action : VideoTrackAction) :
    VideoTracks :=
  match action with
  | .stageLeft => initialVideoTracks
  | .reset => initialVideoTracks
  | .stageJoined videoTracks =>
    match videoTracks with
    | some l => l.foldl addVideoTrack state
    | none => state
  | .added payload => addVideoTrack state payload
  | .changed update =>
    { state with
      byId := fun k =>
        if k = update._id then
          some (mergeVT ((state.byId update._id).getD (emptyVTRecord update._id)) update)
        else state.byId k }
  | .removed id =>
    match state.byId id with
    | some record =>
      { byId := fun k => if k = id then none else state.byId k
        byStageMember := fun k =>
          if k = record.stageMemberId.getD "undefined" then
            some (((state.byStageMember (record.stageMemberId.getD "undefined")).getD
              []).filter (· ≠ id))
          else state.byStageMember k
        byStageDevice := fun k =>
          if k = record.stageDeviceId.getD "undefined" then
            some (((state.byStageDevice (record.stageDeviceId.getD "undefined")).getD
              []).filter (· ≠ id))
          else state.byStageDevice k
        byStage := fun k =>
          if k = record.stageId.getD "undefined" then
            some (((state.byStage (record.stageId.getD "undefined")).getD []).filter
              (· ≠ id))
          else state.byStage k
        byUser := fun k =>
          if k = record.userId.getD "undefined" then
            some (((state.byUser (record.userId.getD "undefined")).getD []).filter
              (· ≠ id))
          else state.byUser k
        allIds := state.allIds.filter (· ≠ id) }
    | none => state
  | .other => state

/-- Claim C2's invariant for the custom-group-position store: `allIds` holds no
duplicates and contains exactly the keys of `byId`. -/
def cgpIdsConsistent (s : CustomGroupPositions) : Prop :=
  s.allIds.Nodup ∧ ∀ k, (s.byId k).isSome ↔ k ∈ s.allIds

/-- Claim C2's invariant for the video-track store. -/
def vtIdsConsistent (s : VideoTracks) : Prop :=
  s.allIds.Nodup ∧ ∀ k, (s.byId k).isSome ↔ k ∈ s.allIds

/-- The event is not a patch of an id unknown to `byId` (the one event kind
that breaks claim C2 as stated). -/
def cgpActionKnown (s : CustomGroupPositions) (a : CustomGroupPositionAction) : Bool :=
  match a with
  | .changed p => (s.byId p._id).isSome
  | _ => true

def vtActionKnown (s : VideoTracks) (a : VideoTrackAction) : Bool :=
  match a with
  | .changed u => (s.byId u._id).isSome
  | _ => true

/-- Every patch event along the sequence hits a known id, checked against the
state it is applied to. -/
def cgpSeqKnown : CustomGroupPositions → List CustomGroupPositionAction → Bool
  | _, [] => true
  | s, a :: l => cgpActionKnown s a && cgpSeqKnown (reduceCustomGroupPositions s a) l

def vtSeqKnown : VideoTracks → List VideoTrackAction → Bool
  | _, [] => true
  | s, a :: l => vtActionKnown s a && vtSeqKnown (reduceVideoTracks s a) l

def cgpApplyAll (s : CustomGroupPositions) (l : List CustomGroupPositionAction) :
    CustomGroupPositions :=
  l.foldl reduceCustomGroupPositions s

def vtApplyAll (s : VideoTracks) (l : List VideoTrackAction) : VideoTracks :=
  l.foldl reduceVideoTracks s

theorem upsert_nodup (l : List String) (v : String) (h : l.Nodup) :
    (upsert (some l) v).Nodup := by
  by_cases hv : v ∈ l
  · simpa [upsert, hv] using h
  · simp [upsert, hv, List.nodup_append, h]

theorem mem_upsert (l : List String) (v k : String) :
    k ∈ upsert (some l) v ↔ k ∈ l ∨ k = v := by
  by_cases hv : v ∈ l
  · simp only [upsert, if_pos hv]
    exact ⟨Or.inl, fun h => h.elim id (fun hk => hk ▸ hv)⟩
  · simp [upsert, hv]

theorem cgpIdsConsistent_initial : cgpIdsConsistent initialCustomGroupPositions := by
  refine ⟨List.nodup_nil, fun k => ?_⟩
  simp [initialCustomGroupPositions]

theorem vtIdsConsistent_initial : vtIdsConsistent initialVideoTracks := by
  refine ⟨List.nodup_nil, fun k => ?_⟩
  simp [initialVideoTracks]

theorem addCustomGroupPosition_idsConsistent (s : CustomGroupPositions)
    (e : CustomGroupPosition) (h : cgpIdsConsistent s) :
    cgpIdsConsistent (addCustomGroupPosition s e) := by
  obtain ⟨hnd, hmem⟩ := h
  refine ⟨upsert_nodup _ _ hnd, fun k => ?_⟩
  by_cases hk : k = e._id
  · subst hk
    simp [addCustomGroupPosition, mem_upsert]
  · simp only [addCustomGroupPosition, if_neg hk, mem_upsert]
    rw [hmem k]
    exact ⟨Or.inl, fun h => h.elim id (fun hc => absurd hc hk)⟩

theorem addVideoTrack_idsConsistent (s : VideoTracks) (v : VideoTrack)
    (h : vtIdsConsistent s) : vtIdsConsistent (addVideoTrack s v) := by
  obtain ⟨hnd, hmem⟩ := h
  refine ⟨upsert_nodup _ _ hnd, fun k => ?_⟩
  by_cases hk : k = v._id
  · subst hk
    simp [addVideoTrack, mem_upsert]
  · simp only [addVideoTrack, if_neg hk, mem_upsert]
    rw [hmem k]
    exact ⟨Or.inl, fun h => h.elim id (fun hc => absurd hc hk)⟩

theorem cgpFold_idsConsistent (l : List CustomGroupPosition) :
    ∀ s, cgpIdsConsistent s → cgpIdsConsistent (l.foldl addCustomGroupPosition s) := by
  induction l with
  | nil => exact fun s h => h
  | cons e l ih => exact fun s h => ih _ (addCustomGroupPosition_idsConsistent s e h)

theorem vtFold_idsConsistent (l : List VideoTrack) :
    ∀ s, vtIdsConsistent s → vtIdsConsistent (l.foldl addVideoTrack s) := by
  induction l with
  | nil => exact fun s h => h
  | cons v l ih => exact fun s h => ih _ (addVideoTrack_idsConsistent s v h)

theorem cgpIdsConsistent_step (s : CustomGroupPositions)
    (a : CustomGroupPositionAction) (h : cgpIdsConsistent s)
    (ha : cgpActionKnown s a = true) :
    cgpIdsConsistent (reduceCustomGroupPositions s a) := by
  obtain ⟨hnd, hmem⟩ := h
  cases a with
  | stageLeft => exact cgpIdsConsistent_initial
  | reset => exact cgpIdsConsistent_initial
  | stageJoined l =>
    cases l with
    | some l => exact cgpFold_idsConsistent l s ⟨hnd, hmem⟩
    | none => exact ⟨hnd, hmem⟩
  | added e => exact addCustomGroupPosition_idsConsistent s e ⟨hnd, hmem⟩
  | changed p =>
    simp only [cgpActionKnown] at ha
    have hin : p._id ∈ s.allIds := (hmem p._id).mp ha
    refine ⟨hnd, fun k => ?_⟩
    by_cases hk : k = p._id
    · subst hk
      simp [reduceCustomGroupPositions, hin]
    · simp only [reduceCustomGroupPositions, if_neg hk]
      exact hmem k
  | removed id =>
    cases hby : s.byId id with
    | some r =>
      simp only [reduceCustomGroupPositions, hby]
      refine ⟨hnd.filter _, fun k => ?_⟩
      by_cases hk : k = id
      · subst hk
        simp [List.mem_filter]
      · simp only [if_neg hk, List.mem_filter]
        rw [hmem k]
        simp [hk]
    | none => simpa [reduceCustomGroupPositions, hby] using ⟨hnd, hmem⟩
  | other => exact ⟨hnd, hmem⟩

theorem vtIdsConsistent_step (s : VideoTracks) (a : VideoTrackAction)
    (h : vtIdsConsistent s) (ha : vtActionKnown s a = true) :
    vtIdsConsistent (reduceVideoTracks s a) := by
  obtain ⟨hnd, hmem⟩ := h
  cases a with
  | stageLeft => exact vtIdsConsistent_initial
  | reset => exact vtIdsConsistent_initial
  | stageJoined l =>
    cases l with
    | some l => exact vtFold_idsConsistent l s ⟨hnd, hmem⟩
    | none => exact ⟨hnd, hmem⟩
  | added v => exact addVideoTrack_idsConsistent s v ⟨hnd, hmem⟩
  | changed u =>
    simp only [vtActionKnown] at ha
    have hin : u._id ∈ s.allIds := (hmem u._id).mp ha
    refine ⟨hnd, fun k => ?_⟩
    by_cases hk : k = u._id
    · subst hk
      simp [reduceVideoTracks, hin]
    · simp only [reduceVideoTracks, if_neg hk]
      exact hmem k
  | removed id =>
    cases hby : s.byId id with
    | some r =>
      simp only [reduceVideoTracks, hby]
      refine ⟨hnd.filter _, fun k => ?_⟩
      by_cases hk : k = id
      · subst hk
        simp [List.mem_filter]
      · simp only [if_neg hk, List.mem_filter]
        rw [hmem k]
        simp [hk]
    | none => simpa [reduceVideoTracks, hby] using ⟨hnd, hmem⟩
  | other => exact ⟨hnd, hmem⟩

theorem cgpIdsConsistent_seq (l : List CustomGroupPositionAction) :
    ∀ s, cgpIdsConsistent s → cgpSeqKnown s l = true →
      cgpIdsConsistent (cgpApplyAll s l) := by
  induction l with
  | nil => exact fun s h _ => h
  | cons a l ih =>
    intro s h hseq
    rw [cgpSeqKnown, Bool.and_eq_true] at hseq
    exact ih _ (cgpIdsConsistent_step s a h hseq.1) hseq.2

theorem vtIdsConsistent_seq (l : List VideoTrackAction) :
    ∀ s, vtIdsConsistent s → vtSeqKnown s l = true →
      vtIdsConsistent (vtApplyAll s l) := by
  induction l with
  | nil => exact fun s h _ => h
  | cons a l ih =>
    intro s h hseq
    rw [vtSeqKnown, Bool.and_eq_true] at hseq
    exact ih _ (vtIdsConsistent_step s a h hseq.1) hseq.2

def demoCGP : CustomGroupPosition := ⟨"c1", "g1", "d1", 0⟩

def ghostCGPPatch : CustomGroupPositionRecord := ⟨"i", none, none, some 1⟩

/-- C2, counterexample: a one-event sequence consisting of a `Changed` event
for the unknown id "i" breaks the invariant — `{...undefined, ...payload}`
inserts a record under "i" into `byId` while `allIds` stays empty, so `allIds`
no longer contains the keys of `byId`. -/
theorem c2_unknown_patch_counterexample :
    ¬ cgpIdsConsistent
      (cgpApplyAll initialCustomGroupPositions [.changed ghostCGPPatch]) := by
  intro h
  have h2 := (h.2 "i").mp
  simp [cgpApplyAll, reduceCustomGroupPositions, initialCustomGroupPositions,
    ghostCGPPatch] at h2

/-- C2 (amended): starting from the initial state, after every step of every
sequence of events in which each `Changed` event targets an id present in
`byId`, `allIds` contains exactly the keys of `byId` with no duplicates — for
both reduceCustomGroupPositions and reduceVideoTracks.  (A `Changed` event for
an unknown id breaks the invariant by inserting a ghost record into `byId`
only.)  Stated as: the invariant holds initially, is preserved by every
single admissible event from every consistent state, and hence holds after
every admissible sequence. -/
theorem c2_allIds_matches_byId_amended :
    cgpIdsConsistent initialCustomGroupPositions ∧
    vtIdsConsistent initialVideoTracks ∧
    (∀ s a, cgpIdsConsistent s → cgpActionKnown s a = true →
      cgpIdsConsistent (reduceCustomGroupPositions s a)) ∧
    (∀ s a, vtIdsConsistent s → vtActionKnown s a = true →
      vtIdsConsistent (reduceVideoTracks s a)) ∧
    (∀ l s, cgpIdsConsistent s → cgpSeqKnown s l = true →
      cgpIdsConsistent (cgpApplyAll s l)) ∧
    (∀ l s, vtIdsConsistent s → vtSeqKnown s l = true →
      vtIdsConsistent (vtApplyAll s l)) :=
  ⟨cgpIdsConsistent_initial, vtIdsConsistent_initial,
    cgpIdsConsistent_step, vtIdsConsistent_step,
    cgpIdsConsistent_seq, vtIdsConsistent_seq⟩

/-- Witness for C2 (amended) at a concrete admissible sequence:
add an entity, patch it, remove it. -/
theorem c2_allIds_matches_byId_witness :
    cgpIdsConsistent (cgpApplyAll initialCustomGroupPositions
      [.added demoCGP, .changed ⟨"c1", none, none, some 1⟩, .removed "c1"]) :=
  c2_allIds_matches_byId_amended.2.2.2.2.1
    [.added demoCGP, .changed ⟨"c1", none, none, some 1⟩, .removed "c1"]
    initialCustomGroupPositions cgpIdsConsistent_initial (by decide)

/-- C5, counterexample: a `Changed` (patch) event whose id "i" is unknown to
`byId` does not leave the store unchanged — it inserts a record consisting of
the bare patch fields under "i". -/
theorem c5_unknown_patch_not_noop_counterexample :
    (reduceCustomGroupPositions initialCustomGroupPositions
      (.changed ghostCGPPatch)).byId "i" = some ghostCGPPatch ∧
    initialCustomGroupPositions.byId "i" = none ∧
    reduceCustomGroupPositions initialCustomGroupPositions (.changed ghostCGPPatch) ≠
      initialCustomGroupPositions := by
  refine ⟨?_, rfl, ?_⟩
  · simp [reduceCustomGroupPositions, initialCustomGroupPositions, mergeCGP,
      emptyCGPRecord, jsMergeField, ghostCGPPatch]
  · intro h
    have h2 := congrArg (fun s => s.byId "i") h
    simp [reduceCustomGroupPositions, initialCustomGroupPositions, mergeCGP,
      emptyCGPRecord, jsMergeField, ghostCGPPatch] at h2

/-- C5 (amended): for both entity kinds, a `Changed` event rewrites exactly the
`byId` slot of the payload's id: when the id is known the existing record is
shallow-merged with the patch (patch fields win, absent fields keep the old
value) and every other `byId` slot is untouched; when the id is unknown the
stored value is the bare patch record itself (`{...undefined, ...payload}`),
not a no-op. -/
theorem c5_patch_semantics_amended :
    (∀ s p k, (reduceCustomGroupPositions s (.changed p)).byId k =
      if k = p._id then
        some (mergeCGP ((s.byId p._id).getD (emptyCGPRecord p._id)) p)
      else s.byId k) ∧
    (∀ p : CustomGroupPositionRecord, mergeCGP (emptyCGPRecord p._id) p = p) ∧
    (∀ s u k, (reduceVideoTracks s (.changed u)).byId k =
      if k = u._id then
        some (mergeVT ((s.byId u._id).getD (emptyVTRecord u._id)) u)
      else s.byId k) ∧
    (∀ u : VideoTrackRecord, mergeVT (emptyVTRecord u._id) u = u) := by
  refine ⟨fun s p k => rfl, fun p => ?_, fun s u k => rfl, fun u => ?_⟩
  · cases p with
    | mk i g d x => cases g <;> cases d <;> cases x <;> rfl
  · cases u with
    | mk i sm sd st us ty =>
      cases sm <;> cases sd <;> cases st <;> cases us <;> cases ty <;> rfl

/-- C10, confirmed: a `Changed` (patch) event rebuilds only `byId` — `allIds`
and every secondary index (`byGroup`, `byDevice`, the compound
`byDeviceAndGroup`, and for video tracks `byStageMember`, `byStageDevice`,
`byStage`, `byUser`) are the very same as before, for every state and every
patch payload, including payloads that set a parent-reference field. -/
theorem c10_patch_preserves_indices :
    (∀ s p, (reduceCustomGroupPositions s (.changed p)).byGroup = s.byGroup ∧
      (reduceCustomGroupPositions s (.changed p)).byDevice = s.byDevice ∧
      (reduceCustomGroupPositions s (.changed p)).byDeviceAndGroup =
        s.byDeviceAndGroup ∧
      (reduceCustomGroupPositions s (.changed p)).allIds = s.allIds) ∧
    (∀ s u, (reduceVideoTracks s (.changed u)).byStageMember = s.byStageMember ∧
      (reduceVideoTracks s (.changed u)).byStageDevice = s.byStageDevice ∧
      (reduceVideoTracks s (.changed u)).byStage = s.byStage ∧
      (reduceVideoTracks s (.changed u)).byUser = s.byUser ∧
      (reduceVideoTracks s (.changed u)).allIds = s.allIds) :=
  ⟨fun _ _ => ⟨rfl, rfl, rfl, rfl⟩, fun _ _ => ⟨rfl, rfl, rfl, rfl, rfl⟩⟩

/-- Secondary-index coherence for one flat index: every present bucket is
duplicate-free, and each id it holds is a `byId` key whose record points back
at the bucket's key through the index's parent field. -/
def bucketInv {ρ : Type} (byId : String → Option ρ) (proj : ρ → Option String)
    (idx : String → Option (List String)) : Prop :=
  ∀ g l, idx g = some l →
    l.Nodup ∧ ∀ i ∈ l, ∃ e, byId i = some e ∧ proj e = some g

theorem jsAppend_eq (b : Option (List String)) (v : String) :
    jsAppend b v = b.getD [] ++ [v] := by
  cases b <;> simp [jsAppend]

theorem upsert_eq_append (b : Option (List String)) (v : String)
    (h : v ∉ b.getD []) : upsert b v = b.getD [] ++ [v] := by
  cases b with
  | some l =>
    simp only [Option.getD_some] at h ⊢
    simp [upsert, h]
  | none => simp [upsert]

theorem fresh_not_mem_bucket {ρ : Type} {byId : String → Option ρ}
    {proj : ρ → Option String} {idx : String → Option (List String)}
    (h : bucketInv byId proj idx) {i₀ : String} (hfresh : byId i₀ = none)
    (g : String) : i₀ ∉ (idx g).getD [] := by
  cases hx : idx g with
  | some l =>
    intro hm
    rw [Option.getD_some] at hm
    obtain ⟨e, he, _⟩ := (h g l hx).2 i₀ hm
    rw [hfresh] at he
    cases he
  | none => simp [hx]

theorem bucketInv_add {ρ : Type} {byId byId' : String → Option ρ}
    {proj : ρ → Option String} {idx idx' : String → Option (List String)}
    {i₀ g₀ : String} {r : ρ}
    (hfresh : byId i₀ = none) (hproj : proj r = some g₀)
    (hbyId : ∀ k, byId' k = if k = i₀ then some r else byId k)
    (hidx : ∀ k, idx' k =
      if k = g₀ then some (((idx g₀).getD []) ++ [i₀]) else idx k)
    (h : bucketInv byId proj idx) : bucketInv byId' proj idx' := by
  intro g l hl
  rw [hidx] at hl
  by_cases hg : g = g₀
  · subst hg
    rw [if_pos rfl] at hl
    injection hl with hl
    subst hl
    have hold : ((idx g).getD []).Nodup ∧
        ∀ i ∈ (idx g).getD [], ∃ e, byId i = some e ∧ proj e = some g := by
      cases hx : idx g with
      | some l₀ =>
        rw [Option.getD_some]
        exact h g l₀ hx
      | none => simp [hx]
    have hne : i₀ ∉ (idx g).getD [] := fun hmm => by
      obtain ⟨e, he, _⟩ := hold.2 i₀ hmm
      rw [hfresh] at he
      cases he
    refine ⟨?_, ?_⟩
    · simp [List.nodup_append, hold.1, hne]
    · intro i hi
      rcases List.mem_append.mp hi with hi | hi
      · obtain ⟨e, he, hpe⟩ := hold.2 i hi
        have hne2 : i ≠ i₀ := fun h2 => by
          subst h2
          rw [hfresh] at he
          cases he
        exact ⟨e, by rw [hbyId, if_neg hne2]; exact he, hpe⟩
      · have h2 : i = i₀ := by simpa using hi
        subst h2
        exact ⟨r, by rw [hbyId, if_pos rfl], hproj⟩
  · rw [if_neg hg] at hl
    obtain ⟨hnd, hm⟩ := h g l hl
    refine ⟨hnd, fun i hi => ?_⟩
    obtain ⟨e, he, hpe⟩ := hm i hi
    have hne2 : i ≠ i₀ := fun h2 => by
      subst h2
      rw [hfresh] at he
      cases he
    exact ⟨e, by rw [hbyId, if_neg hne2]; exact he, hpe⟩

theorem bucketInv_patch {ρ : Type} {byId byId' : String → Option ρ}
    {proj : ρ → Option String} {idx : String → Option (List String)}
    {i₀ : String} {v' : Option ρ}
    (hbyId : ∀ k, byId' k = if k = i₀ then v' else byId k)
    (hproj : ∀ e, byId i₀ = some e → ∃ r', v' = some r' ∧ proj r' = proj e)
    (h : bucketInv byId proj idx) : bucketInv byId' proj idx := by
  intro g l hl
  obtain ⟨hnd, hm⟩ := h g l hl
  refine ⟨hnd, fun i hi => ?_⟩
  obtain ⟨e, he, hpe⟩ := hm i hi
  by_cases hik : i = i₀
  · subst hik
    obtain ⟨r', hv, hpr⟩ := hproj e he
    exact ⟨r', by rw [hbyId, if_pos rfl]; exact hv, by rw [hpr]; exact hpe⟩
  · exact ⟨e, by rw [hbyId, if_neg hik]; exact he, hpe⟩

theorem bucketInv_remove {ρ : Type} {byId byId' : String → Option ρ}
    {proj : ρ → Option String} {idx idx' : String → Option (List String)}
    {i₀ gKey : String} {e : ρ}
    (he : byId i₀ = some e) (hkey : gKey = (proj e).getD "undefined")
    (hbyId : ∀ k, byId' k = if k = i₀ then none else byId k)
    (hidx : ∀ k, idx' k = if k = gKey then
        some (((idx gKey).getD []).filter (· ≠ i₀)) else idx k)
    (h : bucketInv byId proj idx) :
    bucketInv byId' proj idx' ∧ ∀ g l, idx' g = some l → i₀ ∉ l := by
  have hmain : ∀ g l, idx' g = some l →
      (l.Nodup ∧ ∀ i ∈ l, ∃ e', byId' i = some e' ∧ proj e' = some g) ∧ i₀ ∉ l := by
    intro g l hl
    rw [hidx] at hl
    by_cases hg : g = gKey
    · subst hg
      rw [if_pos rfl] at hl
      injection hl with hl
      subst hl
      have hold : ((idx g).getD []).Nodup ∧
          ∀ i ∈ (idx g).getD [], ∃ e', byId i = some e' ∧ proj e' = some g := by
        cases hx : idx g with
        | some l₀ =>
          rw [Option.getD_some]
          exact h g l₀ hx
        | none => simp [hx]
      refine ⟨⟨hold.1.filter _, fun i hi => ?_⟩, ?_⟩
      · rw [List.mem_filter] at hi
        have hii : i ≠ i₀ := by simpa using hi.2
        obtain ⟨e', he', hpe⟩ := hold.2 i hi.1
        exact ⟨e', by rw [hbyId, if_neg hii]; exact he', hpe⟩
      · intro hmem
        rw [List.mem_filter] at hmem
        simp at hmem
    · rw [if_neg hg] at hl
      obtain ⟨hnd, hm⟩ := h g l hl
      have hnot : i₀ ∉ l := by
        intro hmem
        obtain ⟨e', he', hpe⟩ := hm i₀ hmem
        rw [he] at he'
        injection he' with he'
        subst he'
        rw [hpe, Option.getD_some] at hkey
        exact hg hkey.symm
      refine ⟨⟨hnd, fun i hi => ?_⟩, hnot⟩
      obtain ⟨e', he', hpe⟩ := hm i hi
      have hii : i ≠ i₀ := fun h2 => hnot (h2 ▸ hi)
      exact ⟨e', by rw [hbyId, if_neg hii]; exact he', hpe⟩
  exact ⟨fun g l hl => (hmain g l hl).1, fun g l hl => (hmain g l hl).2⟩

/-- Coherence of the compound index: `byDeviceAndGroup[d][g]` only ever names
an id whose stored record points back at exactly that (group, device) pair. -/
def cgpPairInv (s : CustomGroupPositions) : Prop :=
  ∀ d m, s.byDeviceAndGroup d = some m → ∀ g i, m g = some i →
    ∃ e, s.byId i = some e ∧ e.groupId = some g ∧ e.deviceId = some d

/-- Claim C8's invariant for the custom-group-position store: both flat
secondary indices are coherent duplicate-free views of `byId`, and the
compound index is coherent. -/
def cgpIndexInv (s : CustomGroupPositions) : Prop :=
  bucketInv s.byId (fun e => e.groupId) s.byGroup ∧
  bucketInv s.byId (fun e => e.deviceId) s.byDevice ∧
  cgpPairInv s

/-- Claim C8's invariant for the video-track store: all four secondary indices
are coherent duplicate-free views of `byId`. -/
def vtIndexInv (s : VideoTracks) : Prop :=
  bucketInv s.byId (fun e => e.stageMemberId) s.byStageMember ∧
  bucketInv s.byId (fun e => e.stageDeviceId) s.byStageDevice ∧
  bucketInv s.byId (fun e => e.stageId) s.byStage ∧
  bucketInv s.byId (fun e => e.userId) s.byUser

/-- After a removal, no secondary index of the custom-group-position store
still holds the removed id. -/
def cgpNoIndexRetains (s : CustomGroupPositions) (i : String) : Prop :=
  (∀ g l, s.byGroup g = some l → i ∉ l) ∧
  (∀ d l, s.byDevice d = some l → i ∉ l) ∧
  (∀ d m, s.byDeviceAndGroup d = some m → ∀ g, m g ≠ some i)

def vtNoIndexRetains (s : VideoTracks) (i : String) : Prop :=
  (∀ g l, s.byStageMember g = some l → i ∉ l) ∧
  (∀ g l, s.byStageDevice g = some l → i ∉ l) ∧
  (∀ g l, s.byStage g = some l → i ∉ l) ∧
  (∀ g l, s.byUser g = some l → i ∉ l)

/-- Each entity added along the list has an id not yet in `byId` at the point
it is processed. -/
def cgpFreshAdds : CustomGroupPositions → List CustomGroupPosition → Bool
  | _, [] => true
  | s, e :: l => (s.byId e._id).isNone && cgpFreshAdds (addCustomGroupPosition s e) l

def vtFreshAdds : VideoTracks → List VideoTrack → Bool
  | _, [] => true
  | s, v :: l => (s.byId v._id).isNone && vtFreshAdds (addVideoTrack s v) l

/-- Side condition for claim C8: added ids are fresh, and `Changed` payloads
do not set any parent-reference field (the two event shapes that break the
index invariant in the code). -/
def cgpActionIndexOk (s : CustomGroupPositions) (a : CustomGroupPositionAction) :
    Bool :=
  match a with
  | .added e => (s.byId e._id).isNone
  | .stageJoined (some l) => cgpFreshAdds s l
  | .changed p => p.groupId.isNone && p.deviceId.isNone
  | _ => true

def vtActionIndexOk (s : VideoTracks) (a : VideoTrackAction) : Bool :=
  match a with
  | .added v => (s.byId v._id).isNone
  | .stageJoined (some l) => vtFreshAdds s l
  | .changed u => u.stageMemberId.isNone && u.stageDeviceId.isNone &&
      u.stageId.isNone && u.userId.isNone
  | _ => true

theorem cgpIndexInv_initial : cgpIndexInv initialCustomGroupPositions := by
  refine ⟨?_, ?_, ?_⟩
  · intro g l hl
    exact Option.noConfusion hl
  · intro g l hl
    exact Option.noConfusion hl
  · intro d m hm
    exact Option.noConfusion hm

theorem vtIndexInv_initial : vtIndexInv initialVideoTracks := by
  refine ⟨?_, ?_, ?_, ?_⟩ <;> intro g l hl <;> exact Option.noConfusion hl

theorem cgpPairInv_add (s : CustomGroupPositions) (e : CustomGroupPosition)
    (hfresh : s.byId e._id = none) (hp : cgpPairInv s) :
    cgpPairInv (addCustomGroupPosition s e) := by
  intro d m hm g i hi
  by_cases hd : d = e.deviceId
  · subst hd
    rw [show (addCustomGroupPosition s e).byDeviceAndGroup e.deviceId =
        some (fun g => if g = e.groupId then some e._id
          else innerOf (s.byDeviceAndGroup e.deviceId) g) from by
      simp [addCustomGroupPosition]] at hm
    rw [Option.some_inj] at hm
    subst hm
    simp only at hi
    by_cases hg : g = e.groupId
    · rw [if_pos hg] at hi
      injection hi with hi
      subst hi
      refine ⟨e.toRecord, ?_, ?_, rfl⟩
      · simp [addCustomGroupPosition]
      · simp [CustomGroupPosition.toRecord, hg]
    · rw [if_neg hg] at hi
      cases hx : s.byDeviceAndGroup e.deviceId with
      | some m₀ =>
        rw [hx] at hi
        simp only [innerOf] at hi
        obtain ⟨e', he', hg', hd'⟩ := hp e.deviceId m₀ hx g i hi
        have hne : i ≠ e._id := fun h2 => by
          subst h2
          rw [hfresh] at he'
          cases he'
        exact ⟨e', by simp [addCustomGroupPosition, hne, he'], hg', hd'⟩
      | none =>
        rw [hx] at hi
        simp only [innerOf] at hi
        exact Option.noConfusion hi
  · rw [show (addCustomGroupPosition s e).byDeviceAndGroup d =
        s.byDeviceAndGroup d from by simp [addCustomGroupPosition, hd]] at hm
    obtain ⟨e', he', hg', hd'⟩ := hp d m hm g i hi
    have hne : i ≠ e._id := fun h2 => by
      subst h2
      rw [hfresh] at he'
      cases he'
    exact ⟨e', by simp [addCustomGroupPosition, hne, he'], hg', hd'⟩

theorem cgpIndexInv_add (s : CustomGroupPositions) (e : CustomGroupPosition)
    (hfresh : s.byId e._id = none) (h : cgpIndexInv s) :
    cgpIndexInv (addCustomGroupPosition s e) := by
  obtain ⟨hg, hd, hp⟩ := h
  refine ⟨?_, ?_, cgpPairInv_add s e hfresh hp⟩
  · exact bucketInv_add hfresh rfl (fun k => rfl)
      (fun k => by simp only [addCustomGroupPosition, jsAppend_eq]) hg
  · exact bucketInv_add hfresh rfl (fun k => rfl)
      (fun k => by simp only [addCustomGroupPosition, jsAppend_eq]) hd

theorem cgpIndexInv_fold (l : List CustomGroupPosition) :
    ∀ s, cgpIndexInv s → cgpFreshAdds s l = true →
      cgpIndexInv (l.foldl addCustomGroupPosition s) := by
  induction l with
  | nil => exact fun s h _ => h
  | cons e l ih =>
    intro s h hf
    rw [cgpFreshAdds, Bool.and_eq_true] at hf
    exact ih _ (cgpIndexInv_add s e (Option.isNone_iff_eq_none.mp hf.1) h) hf.2

theorem cgpIndexInv_changed (s : CustomGroupPositions)
    (p : CustomGroupPositionRecord) (hgp : p.groupId = none)
    (hdp : p.deviceId = none) (h : cgpIndexInv s) :
    cgpIndexInv (reduceCustomGroupPositions s (.changed p)) := by
  obtain ⟨hg, hd, hp⟩ := h
  refine ⟨bucketInv_patch (fun k => rfl) ?_ hg,
    bucketInv_patch (fun k => rfl) ?_ hd, ?_⟩
  · intro e he
    refine ⟨mergeCGP e p, by rw [he]; rfl, ?_⟩
    simp [mergeCGP, jsMergeField, hgp]
  · intro e he
    refine ⟨mergeCGP e p, by rw [he]; rfl, ?_⟩
    simp [mergeCGP, jsMergeField, hdp]
  · intro d m hm g i hi
    obtain ⟨e', he', hg', hd'⟩ := hp d m hm g i hi
    by_cases hik : i = p._id
    · subst hik
      refine ⟨mergeCGP e' p, ?_, ?_, ?_⟩
      · simp [reduceCustomGroupPositions, he']
      · simp [mergeCGP, jsMergeField, hgp, hg']
      · simp [mergeCGP, jsMergeField, hdp, hd']
    · exact ⟨e', by simp [reduceCustomGroupPositions, hik, he'], hg', hd'⟩

theorem cgpPair_remove (s : CustomGroupPositions) (i₀ : String)
    (r : CustomGroupPositionRecord) (hby : s.byId i₀ = some r)
    (byId' : String → Option CustomGroupPositionRecord)
    (dag' : String → Option (String → Option String))
    (hbyId : ∀ k, byId' k = if k = i₀ then none else s.byId k)
    (hdag : ∀ d, dag' d = if d = r.deviceId.getD "undefined" then
        some (fun g => if g = r.groupId.getD "undefined" then none
          else innerOf (s.byDeviceAndGroup (r.deviceId.getD "undefined")) g)
      else s.byDeviceAndGroup d)
    (hp : cgpPairInv s) :
    (∀ d m, dag' d = some m → ∀ g i, m g = some i →
      ∃ e, byId' i = some e ∧ e.groupId = some g ∧ e.deviceId = some d) ∧
    (∀ d m, dag' d = some m → ∀ g, m g ≠ some i₀) := by
  constructor
  · intro d m hm g i hi
    rw [hdag d] at hm
    by_cases hdk : d = r.deviceId.getD "undefined"
    · rw [if_pos hdk] at hm
      rw [Option.some_inj] at hm
      subst hm
      have hi2 : (if g = r.groupId.getD "undefined" then none
          else innerOf (s.byDeviceAndGroup (r.deviceId.getD "undefined")) g) =
          some i := hi
      by_cases hgk : g = r.groupId.getD "undefined"
      · rw [if_pos hgk] at hi2
        exact Option.noConfusion hi2
      · rw [if_neg hgk] at hi2
        cases hx : s.byDeviceAndGroup (r.deviceId.getD "undefined") with
        | some m₀ =>
          rw [hx] at hi2
          simp only [innerOf] at hi2
          obtain ⟨e', he', hg', hd'⟩ :=
            hp (r.deviceId.getD "undefined") m₀ hx g i hi2
          have hne : i ≠ i₀ := by
            intro h2
            subst h2
            rw [hby] at he'
            injection he' with he'
            subst he'
            rw [hg', Option.getD_some] at hgk
            exact hgk rfl
          refine ⟨e', ?_, hg', by rw [hd', hdk]⟩
          rw [hbyId i, if_neg hne]
          exact he'
        | none =>
          rw [hx] at hi2
          simp only [innerOf] at hi2
          exact Option.noConfusion hi2
    · rw [if_neg hdk] at hm
      obtain ⟨e', he', hg', hd'⟩ := hp d m hm g i hi
      have hne : i ≠ i₀ := by
        intro h2
        subst h2
        rw [hby] at he'
        injection he' with he'
        subst he'
        rw [hd', Option.getD_some] at hdk
        exact hdk rfl
      refine ⟨e', ?_, hg', hd'⟩
      rw [hbyId i, if_neg hne]
      exact he'
  · intro d m hm g
    rw [hdag d] at hm
    by_cases hdk : d = r.deviceId.getD "undefined"
    · rw [if_pos hdk] at hm
      rw [Option.some_inj] at hm
      subst hm
      intro h2
      have hi2 : (if g = r.groupId.getD "undefined" then none
          else innerOf (s.byDeviceAndGroup (r.deviceId.getD "undefined")) g) =
          some i₀ := h2
      by_cases hgk : g = r.groupId.getD "undefined"
      · rw [if_pos hgk] at hi2
        exact Option.noConfusion hi2
      · rw [if_neg hgk] at hi2
        cases hx : s.byDeviceAndGroup (r.deviceId.getD "undefined") with
        | some m₀ =>
          rw [hx] at hi2
          simp only [innerOf] at hi2
          obtain ⟨e', he', hg', hd'⟩ :=
            hp (r.deviceId.getD "undefined") m₀ hx g i₀ hi2
          rw [hby] at he'
          injection he' with he'
          subst he'
          rw [hg', Option.getD_some] at hgk
          exact hgk rfl
        | none =>
          rw [hx] at hi2
          simp only [innerOf] at hi2
          exact Option.noConfusion hi2
    · rw [if_neg hdk] at hm
      intro h2
      obtain ⟨e', he', hg', hd'⟩ := hp d m hm g i₀ h2
      rw [hby] at he'
      injection he' with he'
      subst he'
      rw [hd', Option.getD_some] at hdk
      exact hdk rfl

theorem cgpRemoved_inv_and_clean (s : CustomGroupPositions) (i₀ : String)
    (r : CustomGroupPositionRecord) (hby : s.byId i₀ = some r)
    (h : cgpIndexInv s) :
    cgpIndexInv (reduceCustomGroupPositions s (.removed i₀)) ∧
    cgpNoIndexRetains (reduceCustomGroupPositions s (.removed i₀)) i₀ := by
  obtain ⟨hg, hd, hp⟩ := h
  have hG := @bucketInv_remove CustomGroupPositionRecord s.byId
    (reduceCustomGroupPositions s (.removed i₀)).byId
    (fun e => e.groupId) s.byGroup
    (reduceCustomGroupPositions s (.removed i₀)).byGroup
    i₀ (r.groupId.getD "undefined") r
    hby rfl (fun k => by simp [reduceCustomGroupPositions, hby])
    (fun k => by simp [reduceCustomGroupPositions, hby]) hg
  have hD := @bucketInv_remove CustomGroupPositionRecord s.byId
    (reduceCustomGroupPositions s (.removed i₀)).byId
    (fun e => e.deviceId) s.byDevice
    (reduceCustomGroupPositions s (.removed i₀)).byDevice
    i₀ (r.deviceId.getD "undefined") r
    hby rfl (fun k => by simp [reduceCustomGroupPositions, hby])
    (fun k => by simp [reduceCustomGroupPositions, hby]) hd
  have hPair := cgpPair_remove s i₀ r hby
    (reduceCustomGroupPositions s (.removed i₀)).byId
    (reduceCustomGroupPositions s (.removed i₀)).byDeviceAndGroup
    (fun k => by simp [reduceCustomGroupPositions, hby])
    (fun d => by simp [reduceCustomGroupPositions, hby]) hp
  exact ⟨⟨hG.1, hD.1, hPair.1⟩, hG.2, hD.2, hPair.2⟩

theorem cgpIndexInv_step (s : CustomGroupPositions) (a : CustomGroupPositionAction)
    (h : cgpIndexInv s) (ha : cgpActionIndexOk s a = true) :
    cgpIndexInv (reduceCustomGroupPositions s a) := by
  cases a with
  | stageLeft => exact cgpIndexInv_initial
  | reset => exact cgpIndexInv_initial
  | stageJoined l =>
    cases l with
    | some l =>
      simp only [cgpActionIndexOk] at ha
      exact cgpIndexInv_fold l s h ha
    | none => exact h
  | added e =>
    simp only [cgpActionIndexOk] at ha
    exact cgpIndexInv_add s e (Option.isNone_iff_eq_none.mp ha) h
  | changed p =>
    simp only [cgpActionIndexOk, Bool.and_eq_true] at ha
    exact cgpIndexInv_changed s p (Option.isNone_iff_eq_none.mp ha.1)
      (Option.isNone_iff_eq_none.mp ha.2) h
  | removed i =>
    cases hby : s.byId i with
    | some r => exact (cgpRemoved_inv_and_clean s i r hby h).1
    | none => simpa [reduceCustomGroupPositions, hby] using h
  | other => exact h

theorem vtIndexInv_add (s : VideoTracks) (v : VideoTrack)
    (hfresh : s.byId v._id = none) (h : vtIndexInv s) :
    vtIndexInv (addVideoTrack s v) := by
  obtain ⟨h1, h2, h3, h4⟩ := h
  refine ⟨?_, ?_, ?_, ?_⟩
  · exact bucketInv_add hfresh rfl (fun k => rfl)
      (fun k => by
        simp only [addVideoTrack]
        rw [upsert_eq_append _ _ (fresh_not_mem_bucket h1 hfresh _)]) h1
  · exact bucketInv_add hfresh rfl (fun k => rfl)
      (fun k => by
        simp only [addVideoTrack]
        rw [upsert_eq_append _ _ (fresh_not_mem_bucket h2 hfresh _)]) h2
  · exact bucketInv_add hfresh rfl (fun k => rfl)
      (fun k => by
        simp only [addVideoTrack]
        rw [upsert_eq_append _ _ (fresh_not_mem_bucket h3 hfresh _)]) h3
  · exact bucketInv_add hfresh rfl (fun k => rfl)
      (fun k => by
        simp only [addVideoTrack]
        rw [upsert_eq_append _ _ (fresh_not_mem_bucket h4 hfresh _)]) h4

theorem vtIndexInv_fold (l : List VideoTrack) :
    ∀ s, vtIndexInv s → vtFreshAdds s l = true →
      vtIndexInv (l.foldl addVideoTrack s) := by
  induction l with
  | nil => exact fun s h _ => h
  | cons v l ih =>
    intro s h hf
    rw [vtFreshAdds, Bool.and_eq_true] at hf
    exact ih _ (vtIndexInv_add s v (Option.isNone_iff_eq_none.mp hf.1) h) hf.2

theorem vtIndexInv_changed (s : VideoTracks) (u : VideoTrackRecord)
    (hsm : u.stageMemberId = none) (hsd : u.stageDeviceId = none)
    (hst : u.stageId = none) (hus : u.userId = none) (h : vtIndexInv s) :
    vtIndexInv (reduceVideoTracks s (.changed u)) := by
  obtain ⟨h1, h2, h3, h4⟩ := h
  refine ⟨bucketInv_patch (fun k => rfl) ?_ h1,
    bucketInv_patch (fun k => rfl) ?_ h2,
    bucketInv_patch (fun k => rfl) ?_ h3,
    bucketInv_patch (fun k => rfl) ?_ h4⟩
  · intro e he
    refine ⟨mergeVT e u, by rw [he]; rfl, ?_⟩
    simp [mergeVT, jsMergeField, hsm]
  · intro e he
    refine ⟨mergeVT e u, by rw [he]; rfl, ?_⟩
    simp [mergeVT, jsMergeField, hsd]
  · intro e he
    refine ⟨mergeVT e u, by rw [he]; rfl, ?_⟩
    simp [mergeVT, jsMergeField, hst]
  · intro e he
    refine ⟨mergeVT e u, by rw [he]; rfl, ?_⟩
    simp [mergeVT, jsMergeField, hus]

theorem vtRemoved_inv_and_clean (s : VideoTracks) (i₀ : String)
    (r : VideoTrackRecord) (hby : s.byId i₀ = some r) (h : vtIndexInv s) :
    vtIndexInv (reduceVideoTracks s (.removed i₀)) ∧
    vtNoIndexRetains (reduceVideoTracks s (.removed i₀)) i₀ := by
  obtain ⟨h1, h2, h3, h4⟩ := h
  have hA := @bucketInv_remove VideoTrackRecord s.byId
    (reduceVideoTracks s (.removed i₀)).byId
    (fun e => e.stageMemberId) s.byStageMember
    (reduceVideoTracks s (.removed i₀)).byStageMember
    i₀ (r.stageMemberId.getD "undefined") r
    hby rfl (fun k => by simp [reduceVideoTracks, hby])
    (fun k => by simp [reduceVideoTracks, hby]) h1
  have hB := @bucketInv_remove VideoTrackRecord s.byId
    (reduceVideoTracks s (.removed i₀)).byId
    (fun e => e.stageDeviceId) s.byStageDevice
    (reduceVideoTracks s (.removed i₀)).byStageDevice
    i₀ (r.stageDeviceId.getD "undefined") r
    hby rfl (fun k => by simp [reduceVideoTracks, hby])
    (fun k => by simp [reduceVideoTracks, hby]) h2
  have hC := @bucketInv_remove VideoTrackRecord s.byId
    (reduceVideoTracks s (.removed i₀)).byId
    (fun e => e.stageId) s.byStage
    (reduceVideoTracks s (.removed i₀)).byStage
    i₀ (r.stageId.getD "undefined") r
    hby rfl (fun k => by simp [reduceVideoTracks, hby])
    (fun k => by simp [reduceVideoTracks, hby]) h3
  have hD := @bucketInv_remove VideoTrackRecord s.byId
    (reduceVideoTracks s (.removed i₀)).byId
    (fun e => e.userId) s.byUser
    (reduceVideoTracks s (.removed i₀)).byUser
    i₀ (r.userId.getD "undefined") r
    hby rfl (fun k => by simp [reduceVideoTracks, hby])
    (fun k => by simp [reduceVideoTracks, hby]) h4
  exact ⟨⟨hA.1, hB.1, hC.1, hD.1⟩, hA.2, hB.2, hC.2, hD.2⟩

theorem vtIndexInv_step (s : VideoTracks) (a : VideoTrackAction)
    (h : vtIndexInv s) (ha : vtActionIndexOk s a = true) :
    vtIndexInv (reduceVideoTracks s a) := by
  cases a with
  | stageLeft => exact vtIndexInv_initial
  | reset => exact vtIndexInv_initial
  | stageJoined l =>
    cases l with
    | some l =>
      simp only [vtActionIndexOk] at ha
      exact vtIndexInv_fold l s h ha
    | none => exact h
  | added v =>
    simp only [vtActionIndexOk] at ha
    exact vtIndexInv_add s v (Option.isNone_iff_eq_none.mp ha) h
  | changed u =>
    simp only [vtActionIndexOk, Bool.and_eq_true] at ha
    exact vtIndexInv_changed s u (Option.isNone_iff_eq_none.mp ha.1.1.1)
      (Option.isNone_iff_eq_none.mp ha.1.1.2) (Option.isNone_iff_eq_none.mp ha.1.2)
      (Option.isNone_iff_eq_none.mp ha.2) h
  | removed i =>
    cases hby : s.byId i with
    | some r => exact (vtRemoved_inv_and_clean s i r hby h).1
    | none => simpa [reduceVideoTracks, hby] using h
  | other => exact h

def cgpIndexSeqOk : CustomGroupPositions → List CustomGroupPositionAction → Bool
  | _, [] => true
  | s, a :: l => cgpActionIndexOk s a &&
      cgpIndexSeqOk (reduceCustomGroupPositions s a) l

def vtIndexSeqOk : VideoTracks → List VideoTrackAction → Bool
  | _, [] => true
  | s, a :: l => vtActionIndexOk s a && vtIndexSeqOk (reduceVideoTracks s a) l

theorem cgpIndexInv_seq (l : List CustomGroupPositionAction) :
    ∀ s, cgpIndexInv s → cgpIndexSeqOk s l = true →
      cgpIndexInv (cgpApplyAll s l) := by
  induction l with
  | nil => exact fun s h _ => h
  | cons a l ih =>
    intro s h hseq
    rw [cgpIndexSeqOk, Bool.and_eq_true] at hseq
    exact ih _ (cgpIndexInv_step s a h hseq.1) hseq.2

theorem vtIndexInv_seq (l : List VideoTrackAction) :
    ∀ s, vtIndexInv s → vtIndexSeqOk s l = true → vtIndexInv (vtApplyAll s l) := by
  induction l with
  | nil => exact fun s h _ => h
  | cons a l ih =>
    intro s h hseq
    rw [vtIndexSeqOk, Bool.and_eq_true] at hseq
    exact ih _ (vtIndexInv_step s a h hseq.1) hseq.2

/-- C8, counterexample: delivering the very same `CustomGroupPositionAdded`
event twice puts the id "c1" into the `byGroup` bucket of "g1" twice —
`addCustomGroupPosition` appends to an existing bucket without a containment
check, so a bucket is not a set. -/
theorem c8_duplicate_bucket_counterexample :
    (cgpApplyAll initialCustomGroupPositions
      [.added demoCGP, .added demoCGP]).byGroup "g1" = some ["c1", "c1"] ∧
    ¬ (["c1", "c1"] : List String).Nodup := by
  exact ⟨rfl, by decide⟩

/-- C8 (amended): provided every added entity's id is fresh (not yet a key of
`byId` — a re-delivered or re-parented add breaks this) and no `Changed`
payload carries a parent-reference field, every secondary index of both stores
is a duplicate-free set of `byId` keys pointing back at the bucket's parent
key, the compound `byDeviceAndGroup` only names ids of records matching its
(device, group) pair, and removing an entity strips its id from every
secondary index.  Stated as: the invariant holds initially, is preserved by
every admissible event and sequence, and removal of any known id leaves no
index retaining it. -/
theorem c8_secondary_index_invariant_amended :
    cgpIndexInv initialCustomGroupPositions ∧
    vtIndexInv initialVideoTracks ∧
    (∀ s a, cgpIndexInv s → cgpActionIndexOk s a = true →
      cgpIndexInv (reduceCustomGroupPositions s a)) ∧
    (∀ s a, vtIndexInv s → vtActionIndexOk s a = true →
      vtIndexInv (reduceVideoTracks s a)) ∧
    (∀ l s, cgpIndexInv s → cgpIndexSeqOk s l = true →
      cgpIndexInv (cgpApplyAll s l)) ∧
    (∀ l s, vtIndexInv s → vtIndexSeqOk s l = true →
      vtIndexInv (vtApplyAll s l)) ∧
    (∀ s i r, cgpIndexInv s → s.byId i = some r →
      cgpNoIndexRetains (reduceCustomGroupPositions s (.removed i)) i) ∧
    (∀ s i r, vtIndexInv s → s.byId i = some r →
      vtNoIndexRetains (reduceVideoTracks s (.removed i)) i) :=
  ⟨cgpIndexInv_initial, vtIndexInv_initial, cgpIndexInv_step, vtIndexInv_step,
    cgpIndexInv_seq, vtIndexInv_seq,
    fun s i r h hby => (cgpRemoved_inv_and_clean s i r hby h).2,
    fun s i r h hby => (vtRemoved_inv_and_clean s i r hby h).2⟩

/-- Witness for C8 (amended): after adding a concrete entity and removing it
again, no secondary index retains its id. -/
theorem c8_secondary_index_invariant_witness :
    cgpNoIndexRetains (reduceCustomGroupPositions
      (reduceCustomGroupPositions initialCustomGroupPositions (.added demoCGP))
      (.removed "c1")) "c1" :=
  c8_secondary_index_invariant_amended.2.2.2.2.2.2.1
    (reduceCustomGroupPositions initialCustomGroupPositions (.added demoCGP))
    "c1" demoCGP.toRecord
    (cgpIndexInv_step initialCustomGroupPositions (.added demoCGP)
      cgpIndexInv_initial (by decide))
    rfl

/-- The signaling requests the session helpers emit on the router socket
(`RouterRequests` in src/src/hooks/useMediasoup/util.ts), with the id they
carry as payload. -/
inductive ServerRequest where
  | getRTPCapabilities
  | createTransport
  | pauseProducer (id : String)
  | resumeProducer (id : String)
  | closeProducer (id : String)
  | createConsumer (producerId : String)
  | pauseConsumer (id : String)
  | resumeConsumer (id : String)
  | closeConsumer (id : String)
deriving DecidableEq

/-- Local mediasoup producer handle: server-assigned id and local pause
state (`producer.pause()`/`resume()` flip `paused`). -/
structure MediasoupProducer where
  id : String
  paused : Bool
deriving DecidableEq

/-- Local mediasoup consumer handle. -/
structure MediasoupConsumer where
  id : String
  paused : Bool
deriving DecidableEq

/-- Outcome of one session helper: the settled promise and the requests it
emitted on the socket, in order.  The server's acknowledgement is passed in
as `Option String` (an error string or success). -/
structure OpResult (α : Type) where
  result : Except String α
  requests : List ServerRequest

/-- `pauseProducer` (util.ts, lines 211-225): always emits `PauseProducer`
with the producer's id — there is no check of the current pause state; on an
error acknowledgement the promise rejects, otherwise `producer.pause()` runs
and the producer resolves. -/
def pauseProducer (producer : MediasoupProducer) (ack : Option String) :
    OpResult MediasoupProducer where
  result :=
    match ack with
    | some error => .error error
    | none => .ok { producer with paused := true }
  requests := [.pauseProducer producer.id]

/-- `resumeProducer` (util.ts, lines 227-241): always emits `ResumeProducer`;
no pause-state check. -/
def resumeProducer (producer : MediasoupProducer) (ack : Option String) :
    OpResult MediasoupProducer where
  result :=
    match ack with
    | some error => .error error
    | none => .ok { producer with paused := false }
  requests := [.resumeProducer producer.id]

/-- `pauseConsumer` (util.ts, lines 319-337): only when the consumer is not
yet paused does it emit `PauseConsumer` and, on success, pause locally;
otherwise it rejects locally with no request. -/
def pauseConsumer (consumer : MediasoupConsumer) (ack : Option String) :
    OpResult MediasoupConsumer :=
  if !consumer.paused then
    { result :=
        match ack with
        | some error => .error error
        | none => .ok { consumer with paused := true }
      requests := [.pauseConsumer consumer.id] }
  else
    { result := .error "Consumer is not paused", requests := [] }

/-- `resumeConsumer` (util.ts, lines 302-317): only when the consumer is
paused does it emit `ResumeConsumer` and, on success, resume locally;
otherwise it rejects locally with no request. -/
def resumeConsumer (consumer : MediasoupConsumer) (ack : Option String) :
    OpResult MediasoupConsumer :=
  if consumer.paused then
    { result :=
        match ack with
        | some error => .error error
        | none => .ok { consumer with paused := false }
      requests := [.resumeConsumer consumer.id] }
  else
    { result := .error "Consumer is paused yet", requests := [] }

/-- The create-consumer acknowledgement payload (the fields the helper
reads): server-side consumer id, producer id, and whether the server-side
consumer starts paused. -/
structure ConsumerData where
  id : String
  producerId : String
  paused : Bool
deriving DecidableEq

/-- `transport.consume(data)` of the mediasoup-client collaborator: creates a
local consumer (running) bound to the described parameters. -/
def transportConsume (data : ConsumerData) : MediasoupConsumer :=
  { id := data.id, paused := false }

/-- `createConsumer` (util.ts, lines 259-300): emits `CreateConsumer` with the
producer id; on an error acknowledgement it rejects; otherwise it runs
`transport.consume(data)` and, when the server reported `paused: true`,
immediately awaits `consumer.pause()` before resolving. -/
def createConsumer (producerId : String)
    (serverResponse : Except String ConsumerData) : OpResult MediasoupConsumer :=
  match serverResponse with
  | .error e => { result := .error e, requests := [.createConsumer producerId] }
  | .ok data =>
    let consumer := transportConsume data
    let consumer := if data.paused then { consumer with paused := true } else consumer
    { result := .ok consumer, requests := [.createConsumer producerId] }

/-- `consume` (util.ts, lines 408-428): runs `createConsumer` and then, when
the created local consumer is paused, awaits `resumeConsumer` on it — a
rejected resume rejects the whole call; a successful resume leaves the
consumer running when `consume` resolves. -/
def consume (producerId : String) (serverResponse : Except String ConsumerData)
    (resumeAck : Option String) : OpResult MediasoupConsumer :=
  match createConsumer producerId serverResponse with
  | { result := .error e, requests := reqs } =>
    { result := .error e, requests := reqs }
  | { result := .ok localConsumer, requests := reqs } =>
    if localConsumer.paused then
      let resumed := resumeConsumer localConsumer resumeAck
      { result := resumed.result, requests := reqs ++ resumed.requests }
    else
      { result := .ok localConsumer, requests := reqs }

/-- A created WebRTC transport: server-assigned id and direction. -/
structure MediasoupTransport where
  id : String
  direction : String
deriving DecidableEq

/-- The environment one `connect` run sees: the `GetRTPCapabilities`
acknowledgement (error or success), the outcome of `device.load`, and the
`CreateTransport` acknowledgement for each direction (an error string, or the
transport options — represented by the id of the transport they yield). -/
structure ConnectEnv where
  rtpCapabilitiesAck : Option String
  loadError : Option String
  sendTransportResponse : Except String String
  receiveTransportResponse : Except String String

/-- Outcome of `connect`: the settled promise, the transports that were
created and never torn down, and the requests emitted. -/
structure ConnectResult where
  result : Except String (MediasoupTransport × MediasoupTransport)
  openTransports : List MediasoupTransport
  requests : List ServerRequest

/-- `createWebRTCTransport` (util.ts, lines 130-199): emits `CreateTransport`;
an error acknowledgement rejects the promise; otherwise a send- or
receive-direction transport is created from the returned options and resolved
(its connect/produce handlers fire later and are not part of creation). -/
def createWebRTCTransport (direction : String)
    (response : Except String String) :
    Except String MediasoupTransport × List ServerRequest :=
  match response with
  | .error e => (.error e, [.createTransport])
  | .ok transportId => (.ok ⟨transportId, direction⟩, [.createTransport])

/-- `connect` (util.ts, lines 430-451): `getRTPCapabilities`, then
`device.load`, then `Promise.all` of the two `createWebRTCTransport` calls.
`Promise.all` rejects as soon as either creation fails, but the other
creation still runs, and `connect` contains no teardown: a transport created
while the other direction failed stays open. -/
def connect (env : ConnectEnv) : ConnectResult :=
  match env.rtpCapabilitiesAck with
  | some e =>
    { result := .error e, openTransports := [], requests := [.getRTPCapabilities] }
  | none =>
    match env.loadError with
    | some e =>
      { result := .error e, openTransports := [], requests := [.getRTPCapabilities] }
    | none =>
      let send := createWebRTCTransport "send" env.sendTransportResponse
      let receive := createWebRTCTransport "receive" env.receiveTransportResponse
      let reqs := .getRTPCapabilities :: (send.2 ++ receive.2)
      match send.1, receive.1 with
      | .ok st, .ok rt =>
        { result := .ok (st, rt), openTransports := [st, rt], requests := reqs }
      | .error e, .ok rt =>
        { result := .error e, openTransports := [rt], requests := reqs }
      | .ok st, .error e =>
        { result := .error e, openTransports := [st], requests := reqs }
      | .error e, .error _ =>
        { result := .error e, openTransports := [], requests := reqs }

/-- A categorized media device as enumerated by the browser. -/
structure WebMediaDevice where
  id : String
  label : String
deriving DecidableEq

/-- A JavaScript array value: reference identity (`ref`) plus contents.  The
strict comparison `a !== b` used by `refreshMediaDevices` compares
references, never contents; `enumerateDevices` pushes into freshly created
arrays, so its three lists carry references distinct from any stored ones. -/
structure JSDeviceList where
  ref : Nat
  items : List WebMediaDevice
deriving DecidableEq

/-- The last known device record (`MediasoupDevice`): id plus the three
device-kind lists stored from an earlier update. -/
structure MediasoupDevice where
  _id : String
  inputAudioDevices : JSDeviceList
  inputVideoDevices : JSDeviceList
  outputAudioDevices : JSDeviceList
deriving DecidableEq

/-- The `ChangeDevice` update payload: the id plus only the lists considered
changed. -/
structure ChangeDevicePayload where
  _id : String
  inputAudioDevices : Option JSDeviceList
  inputVideoDevices : Option JSDeviceList
  outputAudioDevices : Option JSDeviceList
deriving DecidableEq

/-- A fresh enumeration result: the three categorized lists. -/
structure DeviceEnumeration where
  inputAudioDevices : JSDeviceList
  inputVideoDevices : JSDeviceList
  outputAudioDevices : JSDeviceList
deriving DecidableEq

/-- `refreshMediaDevices` (util.ts, lines 510-538): for each of the three
lists, `currentDevice.list !== devices.list` (reference inequality) marks it
for update; when any is marked, a `ChangeDevice` event carrying the marked
lists is emitted, else the call resolves false with no emission. -/
def refreshMediaDevices (currentDevice : MediasoupDevice)
    (devices : DeviceEnumeration) : Option ChangeDevicePayload :=
  let update1 := currentDevice.inputAudioDevices.ref ≠ devices.inputAudioDevices.ref
  let update2 := currentDevice.inputVideoDevices.ref ≠ devices.inputVideoDevices.ref
  let update3 := currentDevice.outputAudioDevices.ref ≠ devices.outputAudioDevices.ref
  if update1 ∨ update2 ∨ update3 then
    some
      { _id := currentDevice._id
        inputAudioDevices := if update1 then some devices.inputAudioDevices else none
        inputVideoDevices := if update2 then some devices.inputVideoDevices else none
        outputAudioDevices :=
          if update3 then some devices.outputAudioDevices else none }
  else none

/-- C3, counterexample: `pause()` issued twice in a row on a producer — the
first call succeeds and pauses; the second call, on the already-paused
producer, still emits a `PauseProducer` request and resolves successfully:
there is no local precondition failure and no request is saved. -/
theorem c3_producer_pause_twice_counterexample :
    (pauseProducer ⟨"p1", false⟩ none).result = .ok ⟨"p1", true⟩ ∧
    (pauseProducer ⟨"p1", false⟩ none).requests = [.pauseProducer "p1"] ∧
    (pauseProducer ⟨"p1", true⟩ none).requests = [.pauseProducer "p1"] ∧
    (pauseProducer ⟨"p1", true⟩ none).result = .ok ⟨"p1", true⟩ :=
  ⟨rfl, rfl, rfl, rfl⟩

/-- C3 (amended): the fail-fast idempotence guard exists only for consumers.
`pauseProducer` and `resumeProducer` always emit their request, whatever the
current pause state, and apply the local state change on a successful
acknowledgement.  `pauseConsumer` on an already-paused consumer and
`resumeConsumer` on a running consumer reject locally with a precondition
error and emit no request; in the admissible states they emit exactly one
request. -/
theorem c3_pause_resume_guards_amended :
    (∀ (i : String) (b : Bool) (ack : Option String),
      (pauseProducer ⟨i, b⟩ ack).requests = [.pauseProducer i]) ∧
    (∀ (i : String) (b : Bool) (ack : Option String),
      (resumeProducer ⟨i, b⟩ ack).requests = [.resumeProducer i]) ∧
    (∀ (i : String) (ack : Option String),
      pauseConsumer ⟨i, true⟩ ack =
        ⟨.error "Consumer is not paused", []⟩) ∧
    (∀ (i : String) (ack : Option String),
      resumeConsumer ⟨i, false⟩ ack =
        ⟨.error "Consumer is paused yet", []⟩) ∧
    (∀ (i : String) (ack : Option String),
      (pauseConsumer ⟨i, false⟩ ack).requests = [.pauseConsumer i]) ∧
    (∀ (i : String) (ack : Option String),
      (resumeConsumer ⟨i, true⟩ ack).requests = [.resumeConsumer i]) :=
  ⟨fun _ _ _ => rfl, fun _ _ _ => rfl, fun _ _ => rfl, fun _ _ => rfl,
    fun _ _ => rfl, fun _ _ => rfl⟩

/-- C7, counterexample: when the server's create-consumer response reports
`paused: true`, `createConsumer` does resolve with a paused consumer, but the
claimed call `consume` then resumes it before resolving: immediately after
`consume` resolves the local consumer's pause state is false, not true. -/
theorem c7_consume_resumes_before_resolving_counterexample :
    (createConsumer "p1" (.ok ⟨"c1", "p1", true⟩)).result = .ok ⟨"c1", true⟩ ∧
    (consume "p1" (.ok ⟨"c1", "p1", true⟩) none).result = .ok ⟨"c1", false⟩ :=
  ⟨rfl, rfl⟩

/-- C7 (amended): immediately after `createConsumer` resolves, the local
consumer's pause state equals the server-reported `paused` flag — in
particular it is paused, never audible, when the server says `paused: true`.
The wrapper `consume`, however, immediately resumes a paused consumer: when
the resume acknowledgement succeeds, `consume` resolves with the consumer
running (pause state false) after emitting create-consumer and
resume-consumer requests; when the resume acknowledgement is an error, the
whole `consume` call rejects.  A consumer the server reports running is
returned as-is. -/
theorem c7_consume_pause_state_amended :
    (∀ (pid : String) (d : ConsumerData),
      (createConsumer pid (.ok d)).result = .ok ⟨d.id, d.paused⟩) ∧
    (∀ (pid i p : String),
      consume pid (.ok ⟨i, p, true⟩) none =
        ⟨.ok ⟨i, false⟩, [.createConsumer pid, .resumeConsumer i]⟩) ∧
    (∀ (pid i p e : String),
      (consume pid (.ok ⟨i, p, true⟩) (some e)).result = .error e) ∧
    (∀ (pid i p : String) (ack : Option String),
      consume pid (.ok ⟨i, p, false⟩) ack =
        ⟨.ok ⟨i, false⟩, [.createConsumer pid]⟩) ∧
    (∀ (pid e : String) (ack : Option String),
      (consume pid (.error e) ack).result = .error e) := by
  refine ⟨?_, fun pid i p => rfl, fun pid i p e => rfl,
    fun pid i p ack => rfl, fun pid e ack => rfl⟩
  intro pid d
  cases hd : d.paused <;> simp [createConsumer, transportConsume, hd]

/-- C9, counterexample: capabilities and profile load succeed, the send
transport creation fails while the receive transport creation succeeds —
`connect` rejects (as claimed), but the created receive transport is left
open: nothing tears it down before the failure is surfaced. -/
theorem c9_half_open_transport_counterexample :
    (connect ⟨none, none, .error "send failed", .ok "rt1"⟩).result =
      .error "send failed" ∧
    (connect ⟨none, none, .error "send failed", .ok "rt1"⟩).openTransports =
      [⟨"rt1", "receive"⟩] ∧
    (connect ⟨none, none, .error "send failed", .ok "rt1"⟩).openTransports ≠
      [] := by
  refine ⟨rfl, rfl, fun h => List.noConfusion h⟩

/-- C9 (amended): `connect` rejects whenever capability loading, the local
profile load, or either transport creation fails — but a failed connect can
leave one transport half-open: the transport created for the direction that
succeeded is not torn down before the failure is surfaced (connect has no
teardown path).  On full success both transports are open. -/
theorem c9_connect_failure_amended :
    (∀ (e : String) (l : Option String) (sr rr : Except String String),
      connect ⟨some e, l, sr, rr⟩ =
        ⟨.error e, [], [.getRTPCapabilities]⟩) ∧
    (∀ (e : String) (sr rr : Except String String),
      connect ⟨none, some e, sr, rr⟩ =
        ⟨.error e, [], [.getRTPCapabilities]⟩) ∧
    (∀ (e rid : String),
      connect ⟨none, none, .error e, .ok rid⟩ =
        ⟨.error e, [⟨rid, "receive"⟩],
          [.getRTPCapabilities, .createTransport, .createTransport]⟩) ∧
    (∀ (e sid : String),
      connect ⟨none, none, .ok sid, .error e⟩ =
        ⟨.error e, [⟨sid, "send"⟩],
          [.getRTPCapabilities, .createTransport, .createTransport]⟩) ∧
    (∀ (e e2 : String),
      connect ⟨none, none, .error e, .error e2⟩ =
        ⟨.error e, [],
          [.getRTPCapabilities, .createTransport, .createTransport]⟩) ∧
    (∀ (sid rid : String),
      connect ⟨none, none, .ok sid, .ok rid⟩ =
        ⟨.ok (⟨sid, "send"⟩, ⟨rid, "receive"⟩),
          [⟨sid, "send"⟩, ⟨rid, "receive"⟩],
          [.getRTPCapabilities, .createTransport, .createTransport]⟩) :=
  ⟨fun _ _ _ _ => rfl, fun _ _ _ => rfl, fun _ _ => rfl, fun _ _ => rfl,
    fun _ _ => rfl, fun _ _ => rfl⟩

def staleDeviceRecord : MediasoupDevice := ⟨"dev1", ⟨0, []⟩, ⟨1, []⟩, ⟨2, []⟩⟩

def freshEnumeration : DeviceEnumeration := ⟨⟨3, []⟩, ⟨4, []⟩, ⟨5, []⟩⟩

/-- C4: at the failing input the stored device record and the fresh
enumeration hold literally identical device lists (all three empty), yet
`refreshMediaDevices` emits a `ChangeDevice` update carrying all three lists,
because `!==` compares array references and `enumerateDevices` always builds
fresh arrays.  In general no update is emitted exactly when all three
references coincide — content equality never enters the comparison, contrary
to the claimed "only if a list actually changed" and to the code's own
"update if necessary" intent. -/
theorem c4_refresh_emits_despite_equal_lists :
    staleDeviceRecord.inputAudioDevices.items =
      freshEnumeration.inputAudioDevices.items ∧
    staleDeviceRecord.inputVideoDevices.items =
      freshEnumeration.inputVideoDevices.items ∧
    staleDeviceRecord.outputAudioDevices.items =
      freshEnumeration.outputAudioDevices.items ∧
    refreshMediaDevices staleDeviceRecord freshEnumeration =
      some ⟨"dev1", some ⟨3, []⟩, some ⟨4, []⟩, some ⟨5, []⟩⟩ ∧
    (∀ (cur : MediasoupDevice) (dev : DeviceEnumeration),
      refreshMediaDevices cur dev = none ↔
        cur.inputAudioDevices.ref = dev.inputAudioDevices.ref ∧
        cur.inputVideoDevices.ref = dev.inputVideoDevices.ref ∧
        cur.outputAudioDevices.ref = dev.outputAudioDevices.ref) := by
  refine ⟨rfl, rfl, rfl, by decide, ?_⟩
  intro cur dev
  by_cases h1 : cur.inputAudioDevices.ref = dev.inputAudioDevices.ref <;>
    by_cases h2 : cur.inputVideoDevices.ref = dev.inputVideoDevices.ref <;>
      by_cases h3 : cur.outputAudioDevices.ref = dev.outputAudioDevices.ref <;>
        simp [refreshMediaDevices, h1, h2, h3]
